import Mathlib

/-!
Shallow embedding of the AI Writing Studio content-generation service.

The definitions below are translated from the repository sources:
the Express route in src/backend/routes/generate.js (keyword extraction,
Unsplash fetching, Picsum placeholder padding, the model-fallback retry
loop, and the POST /api/generate request handler) and the Angular client
state in src/frontend/src/app/app.component.ts (draft, version history,
reject).  External collaborators (the text-generation provider and the
photo-search provider) are modelled as oracle functions passed in as
parameters; clock reads (Date.now) are modelled as an explicit baseTime
parameter; the number of external network calls made by a code path is
returned alongside its result so that no-external-call claims can be
stated.  JavaScript strings are modelled as Lean strings (ASCII scope for
the character classes used by the regexes), JavaScript numbers occurring
here are naturals, and thrown errors are modelled with Except / Option.
-/

/-- JS whitespace class backslash-s, ASCII part, as used by the regexes
in generate.js. -/
def isSpaceJs (c : Char) : Bool :=
  c == ' ' || c == '\t' || c == '\n' || c == '\r' || c == '\x0B' || c == '\x0C'

/-- JS word-character class backslash-w: letters, digits, underscore. -/
def isWordCharJs (c : Char) : Bool :=
  c.isAlphanum || c == '_'

/-- JS String.prototype.includes on our ASCII-scope strings. -/
def containsSub (s sub : String) : Bool :=
  s.data.tails.any (fun t => sub.data.isPrefixOf t)

/-- JS String.prototype.toLowerCase, ASCII scope. -/
def jsToLower (s : String) : String :=
  String.mk (s.data.map Char.toLower)

/-- The replace of the regex class [^a-zA-Z0-9_ \t\n\r\x0B\x0C] by the
empty string, i.e. prompt.replace of non-word non-space characters in
extractKeywordsSimple. -/
def jsStripNonWordSpace (s : String) : String :=
  String.mk (s.data.filter (fun c => isWordCharJs c || isSpaceJs c))

mutual

/-- Scanning state of JS split on the whitespace-run regex while inside a
token: acc holds the reversed characters of the current token. -/
def jsSplitRun : List Char → List Char → List String
  | [], acc => [String.mk acc.reverse]
  | c :: cs, acc =>
    if isSpaceJs c then String.mk acc.reverse :: jsSplitSkip cs
    else jsSplitRun cs (c :: acc)

/-- Scanning state of JS split while inside a whitespace run (the run has
already been entered, so a match was emitted). -/
def jsSplitSkip : List Char → List String
  | [] => [""]
  | c :: cs => if isSpaceJs c then jsSplitSkip cs else jsSplitRun cs [c]

end

/-- JS s.split on the regex of one-or-more whitespace characters.  Note
the JS semantics: a leading whitespace run yields a leading empty string
and a trailing whitespace run yields a trailing empty string, and the
empty string splits to a single empty string. -/
def jsSplitWs (s : String) : List String :=
  jsSplitRun s.data []

/-- Decimal digit list of a natural, fuel-driven so that it is structural
and kernel-evaluable.  This is the decimal printing JS applies when a
number is interpolated into a template string. -/
def natDecCore : Nat → Nat → List Char → List Char
  | 0, _, acc => acc
  | fuel + 1, n, acc =>
    if n < 10 then Nat.digitChar n :: acc
    else natDecCore fuel (n / 10) (Nat.digitChar (n % 10) :: acc)

/-- Decimal digit list of a natural (fuel n + 1 always suffices). -/
def natDecList (n : Nat) : List Char :=
  natDecCore (n + 1) n []

/-- Decimal rendering of a natural, as JS template interpolation does. -/
def natDec (n : Nat) : String :=
  String.mk (natDecList n)

/-- An error thrown by the generative-model SDK: an optional HTTP-like
status and a message, the two fields generateWithRetry inspects. -/
structure JsError where
  status : Option Nat
  message : String
deriving DecidableEq

/-- Outcome of one model.generateContent call, supplied by the oracle. -/
inductive CallOutcome where
  | ok (text : String)
  | err (e : JsError)
deriving DecidableEq

/-- The rate-limit classification in generateWithRetry:
error.status is 429, or the message includes quota, or includes 429. -/
def isRateLimitError (e : JsError) : Bool :=
  e.status == some 429 || containsSub e.message "quota" || containsSub e.message "429"

/-- Result of the attempt loop over one model: the text if some attempt
succeeded, the list of (model, attempt) calls that were made, and the
backoff waits (milliseconds) that were performed, in order. -/
structure AttemptResult where
  found : Option String
  calls : List (String × Nat)
  waits : List Nat
deriving DecidableEq

/-- The inner attempt loop of generateWithRetry for one model.  The
oracle call takes the model name, the prompt and the attempt index.
remaining counts the attempts still allowed (initially maxRetries) and
attempt is the current 0-based attempt index, so remaining + attempt =
maxRetries throughout.  Classification of a caught error follows the
source: rate-limit first (retry with 2000 * (attempt + 1) ms backoff when
attempts remain), then status 404 (break to the next model), otherwise a
transient error (retry with 1000 * (attempt + 1) ms backoff when attempts
remain). -/
def tryAttempts (call : String → String → Nat → CallOutcome) (m p : String)
    (maxRetries : Nat) : Nat → Nat → AttemptResult
  | 0, _ => ⟨none, [], []⟩
  | remaining + 1, attempt =>
    match call m p attempt with
    | .ok t => ⟨some t, [(m, attempt)], []⟩
    | .err e =>
      if isRateLimitError e then
        let ws := if attempt < maxRetries - 1 then [2000 * (attempt + 1)] else []
        let r := tryAttempts call m p maxRetries remaining (attempt + 1)
        ⟨r.found, (m, attempt) :: r.calls, ws ++ r.waits⟩
      else if e.status == some 404 then
        ⟨none, [(m, attempt)], []⟩
      else
        let ws := if attempt < maxRetries - 1 then [1000 * (attempt + 1)] else []
        let r := tryAttempts call m p maxRetries remaining (attempt + 1)
        ⟨r.found, (m, attempt) :: r.calls, ws ++ r.waits⟩

instance {ε α : Type} [DecidableEq ε] [DecidableEq α] : DecidableEq (Except ε α) := fun x y =>
  match x, y with
  | .error a, .error b => decidable_of_iff (a = b) (by simp)
  | .error _, .ok _ => isFalse (by simp)
  | .ok _, .error _ => isFalse (by simp)
  | .ok a, .ok b => decidable_of_iff (a = b) (by simp)

/-- Result of generateWithRetry: the returned text or the thrown
exhaustion message, plus the instrumentation trace. -/
structure RetryResult where
  outcome : Except String String
  calls : List (String × Nat)
  waits : List Nat
deriving DecidableEq

/-- The exhaustion error thrown when every model and attempt failed. -/
def exhaustedMsg : String :=
  "All models failed after retries. Free tier quota may be exceeded. Please check your API billing at https://ai.google.dev/"

/-- The model-fallback retry loop of generate.js.  The source fixes the
model list inside the function body; the embedding lifts it to a
parameter so the loop can be stated for any ordered model list, and the
route below passes the configured list.  maxRetries defaults to 2 at the
call site. -/
def generateWithRetry (call : String → String → Nat → CallOutcome)
    (models : List String) (p : String) (maxRetries : Nat) : RetryResult :=
  match models with
  | [] => ⟨.error exhaustedMsg, [], []⟩
  | m :: rest =>
    let r := tryAttempts call m p maxRetries maxRetries 0
    match r.found with
    | some t => ⟨.ok t, r.calls, r.waits⟩
    | none =>
      let r2 := generateWithRetry call rest p maxRetries
      ⟨r2.outcome, r.calls ++ r2.calls, r.waits ++ r2.waits⟩

/-- The model list configured in src/backend/routes/generate.js. -/
def modelsList : List String := ["gemini-2.5-flash"]

/-- The stop-word list of extractKeywordsSimple in generate.js. -/
def stopWords : List String :=
  ["the", "a", "an", "and", "or", "but", "in", "on", "at", "to", "for", "of",
   "with", "by", "from", "as", "is", "was", "are", "were", "been", "be",
   "have", "has", "had", "do", "does", "did", "will", "would", "could",
   "should", "may", "might", "can", "this", "that", "these", "those", "i",
   "you", "he", "she", "it", "we", "they", "what", "which", "who", "when",
   "where", "why", "how", "all", "each", "every", "both", "few", "more",
   "most", "other", "some", "such", "no", "nor", "not", "only", "own",
   "same", "so", "than", "too", "very", "just", "about", "write", "create",
   "make", "generate", "content", "article", "blog", "post", "essay",
   "email", "script", "ad", "seo", "social"]

/-- First-occurrence deduplication, the semantics of spreading a JS Set
built from an array. -/
def dedupFirst : List String → List String → List String
  | [], _ => []
  | x :: xs, seen => if seen.contains x then dedupFirst xs seen
                     else x :: dedupFirst xs (x :: seen)

/-- extractKeywordsSimple of src/backend/routes/generate.js: lower-case,
strip non-word non-space characters, split on whitespace runs, keep
tokens of length above 3 that are not stop words, deduplicate keeping
first occurrences, stable-sort by descending length (JS sort with the
comparator on lengths is stable), take 3, and fall back to the fixed
triple when nothing survives.  The contentType argument is accepted and
ignored, exactly as in the source. -/
def extractKeywordsSimple (prompt : String) (contentType : Option String) : List String :=
  let words := (jsSplitWs (jsStripNonWordSpace (jsToLower prompt))).filter
      (fun w => decide (3 < w.length) && !(stopWords.contains w))
  let uniqueWords := List.insertionSort (fun a b : String => b.length ≤ a.length)
      (dedupFirst words [])
  let keywords := uniqueWords.take 3
  if keywords.length > 0 then keywords else ["professional", "business", "content"]

/-- extractImageKeywords of generate.js just delegates to the simple
extraction. -/
def extractImageKeywords (prompt : String) (contentType : Option String)
    (generatedContent : String) : List String :=
  extractKeywordsSimple prompt contentType

/-- An entry of the imageResults array in generateImageSuggestions:
a URL together with its origin tag. -/
structure ImageEntry where
  url : String
  source : String
deriving DecidableEq

/-- The Picsum placeholder URL template of generate.js. -/
def picsumUrl (imageId cacheBuster : Nat) : String :=
  "https://picsum.photos/800/600?random=" ++ natDec imageId ++ "&t=" ++ natDec cacheBuster

/-- One placeholder entry pushed by the padding while-loop: the image id
is ((baseTime + index * 100) mod 1000) + 1 and the cache buster is
baseTime + index, where index is the current length of the result list. -/
def placeholderEntry (baseTime index : Nat) : ImageEntry :=
  ⟨picsumUrl ((baseTime + index * 100) % 1000 + 1) (baseTime + index), "stock"⟩

/-- The padding while-loop of generateImageSuggestions, fuel-driven
(three iterations always suffice since each one appends exactly one
entry while the length is below 3). -/
def padLoop (baseTime : Nat) : Nat → List ImageEntry → List ImageEntry
  | 0, l => l
  | fuel + 1, l =>
    if l.length < 3 then padLoop baseTime fuel (l ++ [placeholderEntry baseTime l.length])
    else l

/-- Pad the collected image entries with Picsum placeholders up to
length 3. -/
def padTo3 (baseTime : Nat) (l : List ImageEntry) : List ImageEntry :=
  padLoop baseTime 3 l

/-- fetchUnsplashImages of generate.js.  The search oracle returns, per
keyword, either a thrown error (Except.error), a response with no usable
result (ok none, covering both a non-ok HTTP status and an empty result
list), or the first result URL (ok (some url)).  Failures of individual
keywords are skipped and the loop continues.  Returns none when the
credential is absent or when no image was collected, together with the
number of HTTP search calls issued. -/
def fetchUnsplashImages (key : Option String)
    (search : String → Except String (Option String))
    (kws : List String) : Option (List ImageEntry) × Nat :=
  match key with
  | none => (none, 0)
  | some _ =>
    let images := kws.filterMap (fun k =>
      match search k with
      | .ok (some u) => some (⟨u, "unsplash"⟩ : ImageEntry)
      | _ => none)
    (if images.length > 0 then some images else none, kws.length)

/-- The images and tags pair returned by generateImageSuggestions. -/
structure ImagesResult where
  images : List String
  tags : List String
deriving DecidableEq

/-- generateImageSuggestions of generate.js: extract keywords, try
Unsplash on the first 3 keywords, fill the remaining slots with Picsum
placeholders derived from the clock reading baseTime, and return exactly
the first 3 entries as parallel url and source-tag lists, together with
the number of external search calls made.  The function is total: every
failure of the photo-search provider is absorbed (so in the source the
catch-all fallback branch is unreachable). -/
def generateImageSuggestions (prompt : String) (contentType : Option String)
    (generatedContent : String) (key : Option String)
    (search : String → Except String (Option String)) (baseTime : Nat) :
    ImagesResult × Nat :=
  let keywords := extractImageKeywords prompt contentType generatedContent
  let (unsplashImages, calls) := fetchUnsplashImages key search (keywords.take 3)
  let imageResults := match unsplashImages with
    | some l => if l.length > 0 then l else []
    | none => []
  let padded := padTo3 baseTime imageResults
  (⟨(padded.take 3).map (fun i => i.url), (padded.take 3).map (fun i => i.source)⟩, calls)

/-- The JSON body of POST /api/generate, with each optional field absent
or a string (wordCount a number). -/
structure GenRequest where
  prompt : Option String
  tone : Option String
  wordCount : Option Nat
  contentType : Option String
  platform : Option String

/-- JS truthiness fallback x || d for an optional string x: absent and
empty strings are falsy. -/
def jsOr (o : Option String) (d : String) : String :=
  match o with
  | none => d
  | some s => if s = "" then d else s

/-- JS falsiness of the prompt field as tested by the handler guard
(absent or the empty string; a whitespace-only string is truthy). -/
def promptFalsy (p : Option String) : Bool :=
  match p with
  | none => true
  | some s => s == ""

/-- The platformInstructions table of the handler. -/
def platformInstructionFor : String → Option String
  | "standard" => some "Use clear paragraphs with proper spacing."
  | "linkedin" => some "Format for LinkedIn: Use short paragraphs (2-3 lines), include relevant hashtags at the end, start with a hook, and use emojis sparingly for emphasis."
  | "facebook" => some "Format for Facebook: Conversational tone, use line breaks for readability, include a call-to-action, and make it engaging for social sharing."
  | "medium" => some "Format for Medium: Use a compelling title suggestion, include subheadings (marked with ##), write in a storytelling style, and structure with introduction, body, and conclusion."
  | "twitter" => some "Format for Twitter/X: Create a thread-style format with numbered points, keep each section under 280 characters, use relevant hashtags."
  | "instagram" => some "Format for Instagram caption: Start with an attention-grabbing first line, use line breaks, include relevant emojis, and add hashtags at the end."
  | "blog" => some "Format as a blog post: Include a catchy title, introduction, multiple sections with subheadings, bullet points where appropriate, and a conclusion with call-to-action."
  | _ => none

/-- platformInstructions lookup with the standard default, as in
platformInstructions of the handler indexed by platform with the
standard fallback. -/
def platformInstruction (platform : Option String) : String :=
  match platform with
  | none => "Use clear paragraphs with proper spacing."
  | some p => (platformInstructionFor p).getD "Use clear paragraphs with proper spacing."

/-- The enhancedPrompt template string assembled by the handler. -/
def mkEnhancedPrompt (req : GenRequest) : String :=
  let wc : Nat := match req.wordCount with
    | none => 500
    | some n => if n = 0 then 500 else n
  "Generate " ++ jsOr req.contentType "content" ++ " with a " ++ jsOr req.tone "professional"
    ++ " tone, approximately " ++ natDec wc ++ " words.\n\nPlatform: "
    ++ jsOr req.platform "standard" ++ "\nFormatting: " ++ platformInstruction req.platform
    ++ "\n\nContent request: " ++ req.prompt.getD ""
    ++ "\n\nIMPORTANT FORMATTING RULES:\n1. Use **bold** for key points and important phrases\n2. Use bullet points (•) for lists\n3. Mark section headings with ## (e.g., \"## Benefits of Cloud Computing\")\n4. Mark sub-headings with ### if needed\n5. Highlight main takeaways\n6. Make it visually scannable and engaging\n7. Use proper spacing between sections\n\nCRITICAL: Provide ONLY the requested content. Do NOT include:\n- Meta-commentary like \"Here is...\", \"Here\x27s a breakdown...\", \"I\x27ll provide...\"\n- Explanations about what you\x27re doing\n- Introductory phrases about the content\n- Any text that isn\x27t part of the actual content itself\n\nStart directly with the content."

/-- The HTTP response of POST /api/generate. -/
inductive ApiResponse where
  | badRequest (error : String)
  | ok (content : String) (wordCount : Nat) (platform : String)
       (images : List String) (imageTypes : List String)
  | serverError (error : String)
deriving DecidableEq

/-- The quota-exceeded hint appended by the 500 branch of the handler. -/
def quotaHint : String :=
  "Free tier quota exceeded. Please upgrade your plan at https://ai.google.dev/"

/-- The POST /api/generate handler of generate.js, instrumented with the
total number of external network calls made (text-generation calls plus
image-search calls).  When the prompt is falsy the handler returns the
400 response before touching any oracle.  Otherwise it runs the
model-fallback loop on the enhanced prompt with the configured model
list and maxRetries 2 (the default of generateWithRetry); exhaustion is
the only throw and yields the 500 response with the quota special case;
on success the image sourcing step runs and the 200 body is assembled,
with wordCount the length of the JS whitespace split of the content. -/
def handlePost (req : GenRequest) (call : String → String → Nat → CallOutcome)
    (key : Option String) (search : String → Except String (Option String))
    (baseTime : Nat) : ApiResponse × Nat :=
  if promptFalsy req.prompt then (.badRequest "Prompt is required", 0)
  else
    let r := generateWithRetry call modelsList (mkEnhancedPrompt req) 2
    match r.outcome with
    | .error msg =>
      (.serverError ("Failed to generate content. " ++
        (if containsSub msg "quota" then quotaHint else msg)), r.calls.length)
    | .ok text =>
      let (imgRes, icalls) :=
        generateImageSuggestions (req.prompt.getD "") req.contentType text key search baseTime
      let imageUrls := imgRes.images
      let imageTags := imgRes.tags
      (.ok text (jsSplitWs text).length (jsOr req.platform "standard") imageUrls
        (if imageTags.length > 0 then imageTags else []), r.calls.length + icalls)

/-- One entry of the client contentHistory array. -/
structure ContentVersion where
  content : String
  timestamp : Nat
deriving DecidableEq

/-- The claim-relevant fields of the Angular component state. -/
structure ClientState where
  generatedContent : String
  contentHistory : List ContentVersion
  currentVersion : Nat
  contentStatus : String
  editableContent : String
deriving DecidableEq

/-- The field initializers of AppComponent. -/
def initClientState : ClientState :=
  ⟨"", [], 0, "draft", ""⟩

/-- addToHistory of app.component.ts: unshift the new version and reset
the current-version index to 0.  The clock reading new Date() is the
explicit now argument. -/
def addToHistory (s : ClientState) (content : String) (now : Nat) : ClientState :=
  { s with contentHistory := ⟨content, now⟩ :: s.contentHistory, currentVersion := 0 }

/-- The successful branch of generate() in app.component.ts, restricted
to the embedded fields: set the draft, mark it draft, record it in the
history. -/
def generateSuccess (s : ClientState) (responseContent : String) (now : Nat) : ClientState :=
  addToHistory { s with generatedContent := responseContent, contentStatus := "draft" }
    responseContent now

/-- saveEdit of app.component.ts, restricted to the embedded fields. -/
def saveEdit (s : ClientState) (edited : String) (now : Nat) : ClientState :=
  let s1 := addToHistory { s with generatedContent := edited, editableContent := edited }
    edited now
  { s1 with contentStatus := "draft" }

/-- rejectContent of app.component.ts: mark rejected, clear the draft,
clear the whole history. -/
def rejectContent (s : ClientState) : ClientState :=
  { s with contentStatus := "rejected", generatedContent := "", contentHistory := [] }

/-- A successful history-appending client operation: a generate call or
a save-edit, with the clock reading at which it completed. -/
inductive EditOp where
  | generate (responseContent : String) (now : Nat)
  | saveEdit (edited : String) (now : Nat)
deriving DecidableEq

/-- Apply one client operation. -/
def applyOp (s : ClientState) : EditOp → ClientState
  | .generate c now => generateSuccess s c now
  | .saveEdit c now => saveEdit s c now

/-- Apply a sequence of client operations in order. -/
def applyOps (s : ClientState) (ops : List EditOp) : ClientState :=
  ops.foldl applyOp s

/-- The history entry an operation records. -/
def opVersion : EditOp → ContentVersion
  | .generate c now => ⟨c, now⟩
  | .saveEdit c now => ⟨c, now⟩

/-- The clock reading of an operation. -/
def opTime (o : EditOp) : Nat :=
  (opVersion o).timestamp

/-- The Unsplash hits: the keywords whose search call returned a usable
URL, in keyword order, as collected by the loop of fetchUnsplashImages. -/
def unsplashHits (search : String → Except String (Option String))
    (kws : List String) : List String :=
  kws.filterMap (fun k =>
    match search k with
    | .ok (some u) => some u
    | _ => none)

/-- The URLs the image sourcer obtains from the provider for a request:
empty without a credential, otherwise the hits on the first 3 extracted
keywords. -/
def imgHits (key : Option String) (search : String → Except String (Option String))
    (prompt : String) (contentType : Option String) : List String :=
  match key with
  | none => []
  | some _ => unsplashHits search ((extractKeywordsSimple prompt contentType).take 3)

/-- Modelled from the spec: the number of whitespace-separated tokens of
a string, i.e. the maximal whitespace-free non-empty chunks.  This is
the spec-side reading of wordCount, to be compared with the JS split
length the code uses. -/
def specTokenCount (s : String) : Nat :=
  ((jsSplitWs s).filter (fun t => t ≠ "")).length

/-- The base delay of the linear backoff schedule applied to a given
error class: 2000 ms for rate-limit errors, 1000 ms for other transient
errors, straight from the two setTimeout calls of generateWithRetry. -/
def backoffBase (e : JsError) : Nat :=
  if isRateLimitError e then 2000 else 1000

/-- Value of a decimal digit character (proof device for decoding the
rendered numbers inside placeholder URLs). -/
def digitVal (c : Char) : Nat :=
  c.toNat - 48

/-- Value of a decimal digit string read left to right (proof device). -/
def digitsVal (l : List Char) : Nat :=
  l.foldl (fun a c => 10 * a + digitVal c) 0

/-- C6: keyword extraction is a pure deterministic function of its
inputs following the filter, dedup, sort, take-3, fallback pipeline
(the pipeline itself is the definition of extractKeywordsSimple above,
translated from the source); consequently the output always has between
1 and 3 entries, and a prompt made only of stop words yields the fixed
fallback triple. -/
theorem extractKeywordsSimple_output_bounds (p : String) (c : Option String) :
    1 ≤ (extractKeywordsSimple p c).length ∧ (extractKeywordsSimple p c).length ≤ 3 ∧
    extractKeywordsSimple "write the article" c = ["professional", "business", "content"] := by
  refine ⟨?_, ?_, rfl⟩ <;>
  · simp only [extractKeywordsSimple]
    split
    · next h =>
      first
      | omega
      | simp only [List.length_take]
        omega
    · decide

/-- C10: in the main backend route variant, extractKeywordsSimple does
not read its contentType argument: the result is a function of the
prompt alone, with the fixed fallback triple when no keyword survives
the filtering. -/
theorem extractKeywordsSimple_ignores_contentType (p : String) (c1 c2 : Option String) :
    extractKeywordsSimple p c1 = extractKeywordsSimple p c2 ∧
    extractKeywordsSimple "the of and" c1 = ["professional", "business", "content"] :=
  ⟨rfl, rfl⟩

/-- C1 (amended): a request whose prompt is absent or is the empty
string gets the 400 missing-prompt response and causes no external call;
a whitespace-only prompt is NOT rejected by the guard (it is truthy in
JS), see the counterexample below. -/
theorem missing_prompt_rejected_no_calls (req : GenRequest)
    (call : String → String → Nat → CallOutcome) (key : Option String)
    (search : String → Except String (Option String)) (baseTime : Nat)
    (h : req.prompt = none ∨ req.prompt = some "") :
    handlePost req call key search baseTime = (ApiResponse.badRequest "Prompt is required", 0) := by
  rcases h with h | h <;> simp [handlePost, promptFalsy, h]

/-- C1 witness: the amended theorem applied at a concrete request. -/
theorem missing_prompt_rejected_no_calls_witness :
    handlePost ⟨none, none, none, none, none⟩ (fun _ _ _ => CallOutcome.ok "hi") none
      (fun _ => Except.error "down") 0 = (ApiResponse.badRequest "Prompt is required", 0) :=
  missing_prompt_rejected_no_calls _ _ _ _ _ (Or.inl rfl)

/-- C1 counterexample: for the whitespace-only prompt of one space the
handler does not return the 400 response and performs one external
text-generation call, refuting the claim as stated. -/
theorem whitespace_prompt_not_rejected :
    (handlePost ⟨some " ", none, none, none, none⟩ (fun _ _ _ => CallOutcome.ok "hi") none
      (fun _ => Except.error "down") 0).fst ≠ ApiResponse.badRequest "Prompt is required" ∧
    (handlePost ⟨some " ", none, none, none, none⟩ (fun _ _ _ => CallOutcome.ok "hi") none
      (fun _ => Except.error "down") 0).snd = 1 := by
  decide

/-- C3: in the model-fallback loop an error with status 404 (and not
classified as rate-limit) abandons the current model immediately; with
models A then B, A always failing with 404 and B failing transiently on
attempt 0 and succeeding on attempt 1, the loop returns the text of B
after exactly the calls (A,0), (B,0), (B,1) and the single 1000 ms
backoff before the retry of B. -/
theorem retry_404_abandons_model
    (call : String → String → Nat → CallOutcome) (p A B t : String) (eA eB : JsError)
    (hA : ∀ a, call A p a = CallOutcome.err eA)
    (hA404 : eA.status = some 404) (hArl : isRateLimitError eA = false)
    (hB0 : call B p 0 = CallOutcome.err eB)
    (hBrl : isRateLimitError eB = false) (hB404 : eB.status ≠ some 404)
    (hB1 : call B p 1 = CallOutcome.ok t) :
    generateWithRetry call [A, B] p 2 = ⟨Except.ok t, [(A, 0), (B, 0), (B, 1)], [1000]⟩ := by
  have h404B : (eB.status == some 404) = false := by simp [hB404]
  have h404A : (eA.status == some 404) = true := by simp [hA404]
  simp [generateWithRetry, tryAttempts, hA, hB0, hB1, hArl, hBrl, h404A, h404B]

/-- C3 witness: the theorem applied to a concrete oracle where model-a
always returns 404 and model-b succeeds on its second attempt. -/
theorem retry_404_abandons_model_witness :
    generateWithRetry
      (fun m _ a => if m = "model-a" then CallOutcome.err ⟨some 404, "Not Found"⟩
        else if a = 0 then CallOutcome.err ⟨some 503, "overloaded"⟩ else CallOutcome.ok "TEXT")
      ["model-a", "model-b"] "p" 2
      = ⟨Except.ok "TEXT", [("model-a", 0), ("model-b", 0), ("model-b", 1)], [1000]⟩ :=
  retry_404_abandons_model _ "p" "model-a" "model-b" "TEXT"
    ⟨some 404, "Not Found"⟩ ⟨some 503, "overloaded"⟩
    (fun a => by simp) rfl (by decide) (by simp) (by decide) (by decide) (by simp)

/-- Behavior of the attempt loop when every call on this model fails
with the same non-404-classified error: all maxRetries attempts are
made, with the linear backoff before each retry. -/
theorem tryAttempts_all_fail (call : String → String → Nat → CallOutcome)
    (m p : String) (maxRetries : Nat) (e : JsError)
    (hfail : ∀ a, call m p a = CallOutcome.err e)
    (h404 : (e.status == some 404) = false) :
    ∀ remaining attempt, attempt + remaining = maxRetries →
      tryAttempts call m p maxRetries remaining attempt =
        ⟨none, (List.range' attempt remaining).map (fun a => (m, a)),
          (List.range' attempt (remaining - 1)).map (fun a => backoffBase e * (a + 1))⟩ := by
  intro remaining
  induction remaining with
  | zero => intro attempt h; rfl
  | succ r ih =>
    intro attempt h
    have hrec := ih (attempt + 1) (by omega)
    rw [tryAttempts, hfail attempt]
    dsimp only
    by_cases hrl : isRateLimitError e
    · rw [if_pos hrl, hrec]
      cases r with
      | zero =>
        have hc : ¬ attempt < maxRetries - 1 := by omega
        simp [hc, List.range'_succ]
      | succ r' =>
        have hc : attempt < maxRetries - 1 := by omega
        simp [hc, List.range'_succ, backoffBase, hrl]
    · rw [if_neg hrl, if_neg (by simp [h404]), hrec]
      cases r with
      | zero =>
        have hc : ¬ attempt < maxRetries - 1 := by omega
        simp [hc, List.range'_succ]
      | succ r' =>
        have hc : attempt < maxRetries - 1 := by omega
        simp [hc, List.range'_succ, backoffBase, hrl]

/-- Behavior of the whole model-fallback loop when every call on every
model fails with the same non-404-classified error. -/
theorem generateWithRetry_all_fail (call : String → String → Nat → CallOutcome)
    (models : List String) (p : String) (maxRetries : Nat) (e : JsError)
    (hfail : ∀ m a, call m p a = CallOutcome.err e)
    (h404 : (e.status == some 404) = false) :
    generateWithRetry call models p maxRetries =
      ⟨Except.error exhaustedMsg,
        models.flatMap (fun m => (List.range maxRetries).map (fun a => (m, a))),
        models.flatMap (fun _ => (List.range (maxRetries - 1)).map
          (fun a => backoffBase e * (a + 1)))⟩ := by
  induction models with
  | nil => simp [generateWithRetry]
  | cons m rest ih =>
    rw [generateWithRetry,
      tryAttempts_all_fail call m p maxRetries e (hfail m) h404 maxRetries 0 (by omega)]
    simp [ih, List.range_eq_range']

/-- C4: when every model call fails with a fixed non-404 error, the
loop makes exactly models.length * maxRetries calls, fails with the
exhaustion error, and the backoff waits follow the linear schedule
backoffBase e * (attempt + 1) before each retry of the same model. -/
theorem retry_exhaustion_schedule (call : String → String → Nat → CallOutcome)
    (models : List String) (p : String) (maxRetries : Nat) (e : JsError)
    (hfail : ∀ m a, call m p a = CallOutcome.err e)
    (h404 : e.status ≠ some 404) :
    (generateWithRetry call models p maxRetries).outcome = Except.error exhaustedMsg ∧
    (generateWithRetry call models p maxRetries).calls.length = models.length * maxRetries ∧
    (generateWithRetry call models p maxRetries).waits =
      models.flatMap (fun _ => (List.range (maxRetries - 1)).map
        (fun a => backoffBase e * (a + 1))) := by
  have h404' : (e.status == some 404) = false := by simp [h404]
  rw [generateWithRetry_all_fail call models p maxRetries e hfail h404']
  refine ⟨rfl, ?_, rfl⟩
  induction models with
  | nil => simp
  | cons m rest ih => simp [List.flatMap_cons, ih]; ring

/-- C4 witness: the theorem applied to a concrete always-failing oracle
with two models and two attempts each: four calls, two 1000 ms waits. -/
theorem retry_exhaustion_schedule_witness :
    (generateWithRetry (fun _ _ _ => CallOutcome.err ⟨some 500, "boom"⟩) ["m1", "m2"] "p" 2).outcome
        = Except.error exhaustedMsg ∧
    (generateWithRetry (fun _ _ _ => CallOutcome.err ⟨some 500, "boom"⟩) ["m1", "m2"] "p" 2).calls.length
        = 4 ∧
    (generateWithRetry (fun _ _ _ => CallOutcome.err ⟨some 500, "boom"⟩) ["m1", "m2"] "p" 2).waits
        = [1000, 1000] := by
  have h := retry_exhaustion_schedule (fun _ _ _ => CallOutcome.err ⟨some 500, "boom"⟩)
    ["m1", "m2"] "p" 2 ⟨some 500, "boom"⟩ (fun m a => rfl) (by decide)
  exact ⟨h.1, h.2.1.trans (by norm_num), h.2.2.trans (by decide)⟩

/-- Accumulator shift for the decimal digit printer. -/
theorem natDecCore_shift : ∀ (fuel n : Nat) (acc : List Char),
    natDecCore fuel n acc = natDecCore fuel n [] ++ acc := by
  intro fuel
  induction fuel with
  | zero => intro n acc; rfl
  | succ fuel ih =>
    intro n acc
    by_cases h : n < 10
    · simp [natDecCore, h]
    · rw [natDecCore, if_neg h, ih (n / 10) (Nat.digitChar (n % 10) :: acc),
        natDecCore, if_neg h, ih (n / 10) [Nat.digitChar (n % 10)]]
      simp

/-- A decimal digit character decodes to its value. -/
theorem digitVal_digitChar (k : Nat) (hk : k < 10) : digitVal (Nat.digitChar k) = k := by
  interval_cases k <;> decide

/-- Decimal digit characters are never the ampersand. -/
theorem digitChar_ne_amp (k : Nat) (hk : k < 10) : Nat.digitChar k ≠ '&' := by
  interval_cases k <;> decide

/-- The digit printer is correct with respect to the decoder when the
fuel bounds the number. -/
theorem digitsVal_natDecCore : ∀ (fuel n : Nat), n < 10 ^ fuel →
    digitsVal (natDecCore fuel n []) = n := by
  intro fuel
  induction fuel with
  | zero =>
    intro n hn
    interval_cases n
    rfl
  | succ fuel ih =>
    intro n hn
    by_cases h : n < 10
    · simp [natDecCore, h, digitsVal, digitVal_digitChar n h]
    · rw [natDecCore, if_neg h, natDecCore_shift]
      have hdiv : n / 10 < 10 ^ fuel := by
        rw [Nat.div_lt_iff_lt_mul (by norm_num)]
        calc n < 10 ^ (fuel + 1) := hn
        _ = 10 ^ fuel * 10 := by ring
      have := ih (n / 10) hdiv
      simp only [digitsVal, List.foldl_append] at *
      simp [this, digitVal_digitChar (n % 10) (Nat.mod_lt n (by norm_num)),
        Nat.div_add_mod]

/-- The decimal digit list of a natural decodes to that natural. -/
theorem digitsVal_natDecList (n : Nat) : digitsVal (natDecList n) = n := by
  have hfuel : n < 10 ^ (n + 1) :=
    lt_of_lt_of_le (Nat.lt_pow_self (by norm_num) n)
      (Nat.pow_le_pow_right (by norm_num) (Nat.le_succ n))
  exact digitsVal_natDecCore (n + 1) n hfuel

/-- The decimal digit list is injective. -/
theorem natDecList_inj {m n : Nat} (h : natDecList m = natDecList n) : m = n := by
  have := digitsVal_natDecList m
  rw [h, digitsVal_natDecList n] at this
  omega

/-- No character of a printed decimal is the ampersand. -/
theorem natDecCore_ne_amp : ∀ (fuel n : Nat) (acc : List Char),
    (∀ c ∈ acc, c ≠ '&') → ∀ c ∈ natDecCore fuel n acc, c ≠ '&' := by
  intro fuel
  induction fuel with
  | zero => intro n acc hacc c hc; exact hacc c hc
  | succ fuel ih =>
    intro n acc hacc c hc
    by_cases h : n < 10
    · rw [natDecCore, if_pos h] at hc
      rcases List.mem_cons.mp hc with h1 | h1
      · rw [h1]; exact digitChar_ne_amp n h
      · exact hacc c h1
    · rw [natDecCore, if_neg h] at hc
      refine ih (n / 10) (Nat.digitChar (n % 10) :: acc) ?_ c hc
      intro d hd
      rcases List.mem_cons.mp hd with h1 | h1
      · rw [h1]; exact digitChar_ne_amp (n % 10) (Nat.mod_lt n (by norm_num))
      · exact hacc d h1

/-- No character of a printed decimal is the ampersand. -/
theorem natDecList_ne_amp (n : Nat) : ∀ c ∈ natDecList n, c ≠ '&' :=
  natDecCore_ne_amp (n + 1) n [] (by intro c hc; cases hc)

/-- Splitting a character list at a separator absent from the two left
parts is unambiguous. -/
theorem append_amp_inj : ∀ (a1 r1 a2 r2 : List Char),
    (∀ c ∈ a1, c ≠ '&') → (∀ c ∈ a2, c ≠ '&') →
    a1 ++ '&' :: r1 = a2 ++ '&' :: r2 → a1 = a2 ∧ r1 = r2 := by
  intro a1
  induction a1 with
  | nil =>
    intro r1 a2 r2 _ ha2 h
    cases a2 with
    | nil => simpa using h
    | cons d a2' =>
      exfalso
      simp only [List.nil_append, List.cons_append, List.cons.injEq] at h
      exact ha2 d (List.mem_cons_self d a2') h.1.symm
  | cons c a1' ih =>
    intro r1 a2 r2 ha1 ha2 h
    cases a2 with
    | nil =>
      exfalso
      simp only [List.nil_append, List.cons_append, List.cons.injEq] at h
      exact ha1 c (List.mem_cons_self c a1') h.1
    | cons d a2' =>
      simp only [List.cons_append, List.cons.injEq] at h
      obtain ⟨hcd, htl⟩ := h
      have := ih r1 a2' r2 (fun x hx => ha1 x (List.mem_cons_of_mem c hx))
        (fun x hx => ha2 x (List.mem_cons_of_mem d hx)) htl
      exact ⟨by rw [hcd, this.1], this.2⟩

/-- The Picsum placeholder URL determines its cache-busting parameter. -/
theorem picsumUrl_inj_cacheBuster {i1 c1 i2 c2 : Nat}
    (h : picsumUrl i1 c1 = picsumUrl i2 c2) : c1 = c2 := by
  have hd := String.ext_iff.mp h
  simp only [picsumUrl, String.data_append, natDec, List.append_assoc] at hd
  have hd2 := List.append_cancel_left hd
  simp only [List.cons_append, List.nil_append] at hd2
  have := (append_amp_inj _ _ _ _ (natDecList_ne_amp i1) (natDecList_ne_amp i2) hd2).2
  simp only [List.cons.injEq, true_and] at this
  exact natDecList_inj this

/-- Mapping a constant yields a replicate. -/
theorem map_const_replicate {α β : Type} (l : List α) (b : β) :
    l.map (fun _ => b) = List.replicate l.length b := by
  induction l with
  | nil => rfl
  | cons x xs ih => simp [ih, List.replicate_succ]

/-- The padding loop appends exactly the placeholders for the free
slots when at most 3 entries were collected. -/
theorem padTo3_eq (bt : Nat) (l : List ImageEntry) (h : l.length ≤ 3) :
    padTo3 bt l = l ++ (List.range (3 - l.length)).map
      (fun i => placeholderEntry bt (l.length + i)) := by
  rcases l with _ | ⟨a, _ | ⟨b, _ | ⟨c, _ | ⟨d, tl⟩⟩⟩⟩
  · simp [padTo3, padLoop, List.range_succ]
  · simp [padTo3, padLoop, List.range_succ]
  · simp [padTo3, padLoop, List.range_succ]
  · simp [padTo3, padLoop]
  · simp at h

/-- The Unsplash loop of fetchUnsplashImages collects exactly the hit
URLs tagged unsplash, in keyword order. -/
theorem filterMap_unsplash_entries (search : String → Except String (Option String)) :
    ∀ kws : List String,
      kws.filterMap (fun k =>
        match search k with
        | .ok (some u) => some (⟨u, "unsplash"⟩ : ImageEntry)
        | _ => none)
      = (unsplashHits search kws).map (fun u => (⟨u, "unsplash"⟩ : ImageEntry)) := by
  intro kws
  induction kws with
  | nil => rfl
  | cons k ks ih =>
    simp only [unsplashHits, List.filterMap_cons] at *
    cases hsk : search k with
    | error e => simpa [hsk] using ih
    | ok o => cases o <;> simpa [hsk] using ih

/-- The provider can contribute at most 3 URLs. -/
theorem imgHits_le_three (key : Option String)
    (search : String → Except String (Option String))
    (prompt : String) (ct : Option String) :
    (imgHits key search prompt ct).length ≤ 3 := by
  cases key with
  | none => simp [imgHits]
  | some k =>
    refine le_trans (List.length_filterMap_le _ _) ?_
    simp [List.length_take]

/-- Projections of the padded entry list built from the provider hits. -/
theorem padTo3_proj (bt : Nat) (hits : List String) (hle : hits.length <= 3) :
    ((padTo3 bt (hits.map (fun u => (⟨u, "unsplash"⟩ : ImageEntry)))).take 3).map
        (fun i => i.url)
      = hits ++ (List.range (3 - hits.length)).map
          (fun i => (placeholderEntry bt (hits.length + i)).url) ∧
    ((padTo3 bt (hits.map (fun u => (⟨u, "unsplash"⟩ : ImageEntry)))).take 3).map
        (fun i => i.source)
      = List.replicate hits.length "unsplash"
        ++ List.replicate (3 - hits.length) "stock" := by
  have hlen : (hits.map (fun u => (⟨u, "unsplash"⟩ : ImageEntry))).length = hits.length :=
    List.length_map _ _
  have hpad := padTo3_eq bt (hits.map (fun u => (⟨u, "unsplash"⟩ : ImageEntry)))
    (by rw [hlen]; exact hle)
  have hfull : (padTo3 bt (hits.map (fun u => (⟨u, "unsplash"⟩ : ImageEntry)))).length = 3 := by
    rw [hpad]
    simp only [List.length_append, List.length_map, List.length_range, hlen]
    omega
  have htake := List.take_of_length_le (le_of_eq hfull)
  constructor
  · rw [htake, hpad]
    simp [Function.comp_def, placeholderEntry, map_const_replicate]
  · rw [htake, hpad]
    simp [Function.comp_def, placeholderEntry, map_const_replicate]

/-- Structure of the image sourcing result: the provider hits in
keyword order, padded with the indexed Picsum placeholders, and the
parallel origin tags. -/
theorem generateImageSuggestions_spec (prompt : String) (ct : Option String)
    (gc : String) (key : Option String)
    (search : String → Except String (Option String)) (bt : Nat) :
    (generateImageSuggestions prompt ct gc key search bt).fst.images
        = imgHits key search prompt ct
          ++ (List.range (3 - (imgHits key search prompt ct).length)).map
            (fun i => (placeholderEntry bt ((imgHits key search prompt ct).length + i)).url) ∧
    (generateImageSuggestions prompt ct gc key search bt).fst.tags
        = List.replicate (imgHits key search prompt ct).length "unsplash"
          ++ List.replicate (3 - (imgHits key search prompt ct).length) "stock" := by
  have hle := imgHits_le_three key search prompt ct
  have hbase : (match (fetchUnsplashImages key search
        ((extractImageKeywords prompt ct gc).take 3)).1 with
      | some l => if l.length > 0 then l else []
      | none => []) = (imgHits key search prompt ct).map
        (fun u => (⟨u, "unsplash"⟩ : ImageEntry)) := by
    cases key with
    | none => simp [fetchUnsplashImages, imgHits]
    | some k =>
      simp only [fetchUnsplashImages, imgHits, extractImageKeywords]
      rw [filterMap_unsplash_entries search]
      by_cases hz : (unsplashHits search ((extractKeywordsSimple prompt ct).take 3)).length > 0
      · simp [hz]
      · have hnil : unsplashHits search ((extractKeywordsSimple prompt ct).take 3) = [] := by
          cases hu : unsplashHits search ((extractKeywordsSimple prompt ct).take 3) with
          | nil => rfl
          | cons x xs => rw [hu] at hz; simp at hz
        simp [hnil]
  constructor
  · simp only [generateImageSuggestions]
    rw [hbase]
    exact (padTo3_proj bt _ hle).1
  · simp only [generateImageSuggestions]
    rw [hbase]
    exact (padTo3_proj bt _ hle).2

/-- No provider hits when every search fails. -/
theorem unsplashHits_nil (search : String → Except String (Option String))
    (h : ∀ k u, search k ≠ Except.ok (some u)) :
    ∀ kws : List String, unsplashHits search kws = [] := by
  intro kws
  induction kws with
  | nil => rfl
  | cons k ks ih =>
    simp only [unsplashHits, List.filterMap_cons] at *
    cases hsk : search k with
    | error e => simpa [hsk] using ih
    | ok o =>
      cases o with
      | none => simpa [hsk] using ih
      | some u => exact absurd hsk (h k u)

/-- C5: the image sourcing step is total (it never raises: its result
type carries no error case) and always returns exactly 3 entries; when
the photo-search provider never yields a hit (always throwing, always
empty, or the credential missing), all 3 are placeholders whose URLs
follow the formula imageId = ((baseTime + index * 100) mod 1000) + 1
with cache buster baseTime + index, and the 3 URLs are pairwise
distinct. -/
theorem imageSourcer_total_and_placeholders (prompt : String) (ct : Option String)
    (gc : String) (key : Option String)
    (search : String → Except String (Option String)) (bt : Nat) :
    (generateImageSuggestions prompt ct gc key search bt).fst.images.length = 3 ∧
    ((∀ k u, search k ≠ Except.ok (some u)) →
      (generateImageSuggestions prompt ct gc key search bt).fst.images
        = [picsumUrl ((bt + 0 * 100) % 1000 + 1) (bt + 0),
           picsumUrl ((bt + 1 * 100) % 1000 + 1) (bt + 1),
           picsumUrl ((bt + 2 * 100) % 1000 + 1) (bt + 2)] ∧
      (generateImageSuggestions prompt ct gc key search bt).fst.images.Pairwise (· ≠ ·)) := by
  have hspec := (generateImageSuggestions_spec prompt ct gc key search bt).1
  have hle := imgHits_le_three key search prompt ct
  constructor
  · rw [hspec]
    simp only [List.length_append, List.length_map, List.length_range]
    omega
  · intro hfail
    have hnil : imgHits key search prompt ct = [] := by
      cases key with
      | none => rfl
      | some k => exact unsplashHits_nil search hfail _
    rw [hspec, hnil]
    have hlist : ([] : List String) ++ (List.range (3 - ([] : List String).length)).map
        (fun i => (placeholderEntry bt (([] : List String).length + i)).url)
        = [picsumUrl ((bt + 0 * 100) % 1000 + 1) (bt + 0),
           picsumUrl ((bt + 1 * 100) % 1000 + 1) (bt + 1),
           picsumUrl ((bt + 2 * 100) % 1000 + 1) (bt + 2)] := by
      simp [List.range_succ, placeholderEntry]
    rw [hlist]
    refine ⟨rfl, ?_⟩
    simp only [List.pairwise_cons, List.mem_cons, List.mem_singleton, List.not_mem_nil,
      List.Pairwise.nil]
    refine ⟨?_, ?_, ?_⟩
    · intro u hu
      rcases hu with hu | hu | hu
      · subst hu; intro heq
        have := picsumUrl_inj_cacheBuster heq
        omega
      · subst hu; intro heq
        have := picsumUrl_inj_cacheBuster heq
        omega
      · cases hu
    · intro u hu
      rcases hu with hu | hu
      · subst hu; intro heq
        have := picsumUrl_inj_cacheBuster heq
        omega
      · cases hu
    · exact ⟨fun _ h => h.elim, trivial⟩

/-- C5 witness: the theorem applied with a missing credential and an
always-failing provider at baseTime 7. -/
theorem imageSourcer_total_and_placeholders_witness :
    (generateImageSuggestions "x" none "gc" none (fun _ => Except.error "down") 7).fst.images.length
        = 3 ∧
    (generateImageSuggestions "x" none "gc" none (fun _ => Except.error "down") 7).fst.images
      = [picsumUrl ((7 + 0 * 100) % 1000 + 1) (7 + 0),
         picsumUrl ((7 + 1 * 100) % 1000 + 1) (7 + 1),
         picsumUrl ((7 + 2 * 100) % 1000 + 1) (7 + 2)] ∧
    (generateImageSuggestions "x" none "gc" none
        (fun _ => Except.error "down") 7).fst.images.Pairwise (· ≠ ·) := by
  have h := imageSourcer_total_and_placeholders "x" none "gc" none
    (fun _ => Except.error "down") 7
  have h2 := h.2 (by intro k u heq; cases heq)
  exact ⟨h.1, h2.1, h2.2⟩

/-- C7: every image entry is tagged by origin: the tags are the
provider hits tagged unsplash followed by stock for each placeholder,
the images begin with the provider hit URLs in keyword order, and with
no credential configured the imageTypes are exactly stock, stock,
stock. -/
theorem image_entries_tagged_by_origin (prompt : String) (ct : Option String)
    (gc : String) (key : Option String)
    (search : String → Except String (Option String)) (bt : Nat) :
    (generateImageSuggestions prompt ct gc key search bt).fst.tags
        = List.replicate (imgHits key search prompt ct).length "unsplash"
          ++ List.replicate (3 - (imgHits key search prompt ct).length) "stock" ∧
    (generateImageSuggestions prompt ct gc key search bt).fst.images.take
        (imgHits key search prompt ct).length = imgHits key search prompt ct ∧
    (key = none →
      (generateImageSuggestions prompt ct gc key search bt).fst.tags
        = ["stock", "stock", "stock"]) := by
  have hspec := generateImageSuggestions_spec prompt ct gc key search bt
  refine ⟨hspec.2, ?_, ?_⟩
  · rw [hspec.1, List.take_left]
  · intro hk
    subst hk
    rw [hspec.2]
    rfl

/-- C7 witness: the theorem applied with no credential configured. -/
theorem image_entries_tagged_by_origin_witness :
    (generateImageSuggestions "x" none "gc" none (fun _ => Except.error "d") 0).fst.tags
      = ["stock", "stock", "stock"] :=
  (image_entries_tagged_by_origin "x" none "gc" none (fun _ => Except.error "d") 0).2.2 rfl

/-- A run or skip state of the JS whitespace split never emits an empty
piece, provided the input does not end in whitespace and, for the run
state, the current token is non-empty. -/
theorem jsSplit_no_empty : ∀ cs : List Char,
    (∀ ch, cs.getLast? = some ch → isSpaceJs ch = false) →
    ((∀ acc, acc ≠ [] → ∀ t ∈ jsSplitRun cs acc, t ≠ "") ∧
     (cs ≠ [] → ∀ t ∈ jsSplitSkip cs, t ≠ "")) := by
  intro cs
  induction cs with
  | nil =>
    intro _
    constructor
    · intro acc hacc t ht
      simp only [jsSplitRun, List.mem_singleton] at ht
      subst ht
      intro hEq
      have hrev : acc.reverse = [] := by
        have := congrArg String.data hEq
        simpa using this
      exact hacc (by simpa using hrev)
    · intro hne; exact absurd rfl hne
  | cons ch cs ih =>
    intro hlast
    have hlast' : ∀ c2, cs.getLast? = some c2 → isSpaceJs c2 = false := by
      intro c2 hc2
      apply hlast
      cases cs with
      | nil => cases hc2
      | cons d ds => rw [List.getLast?_cons_cons]; exact hc2
    have ihr := ih hlast'
    have hcs_ne : isSpaceJs ch = true → cs ≠ [] := by
      intro hsp hnil
      subst hnil
      have := hlast ch rfl
      rw [this] at hsp
      cases hsp
    constructor
    · intro acc hacc t ht
      by_cases hsp : isSpaceJs ch
      · rw [jsSplitRun, if_pos hsp] at ht
        rcases List.mem_cons.mp ht with ht1 | ht1
        · subst ht1
          intro hEq
          have hrev : acc.reverse = [] := by
            have := congrArg String.data hEq
            simpa using this
          exact hacc (by simpa using hrev)
        · exact ihr.2 (hcs_ne hsp) t ht1
      · rw [jsSplitRun, if_neg hsp] at ht
        exact ihr.1 (ch :: acc) (by simp) t ht
    · intro _ t ht
      by_cases hsp : isSpaceJs ch
      · rw [jsSplitSkip, if_pos hsp] at ht
        exact ihr.2 (hcs_ne hsp) t ht
      · rw [jsSplitSkip, if_neg hsp] at ht
        exact ihr.1 [ch] (by simp) t ht

/-- For a non-empty string with no leading and no trailing whitespace,
the JS whitespace split emits no empty pieces. -/
theorem jsSplitWs_all_nonempty (s : String) (h1 : s.data ≠ [])
    (h2 : (s.data.head?.map isSpaceJs).getD false = false)
    (h3 : (s.data.getLast?.map isSpaceJs).getD false = false) :
    ∀ t ∈ jsSplitWs s, t ≠ "" := by
  obtain ⟨c0, cs, hc⟩ : ∃ c0 cs, s.data = c0 :: cs := by
    cases hd : s.data with
    | nil => exact absurd hd h1
    | cons a l => exact ⟨a, l, rfl⟩
  have h0 : isSpaceJs c0 = false := by
    rw [hc] at h2
    simpa using h2
  have hlast' : ∀ c2, cs.getLast? = some c2 → isSpaceJs c2 = false := by
    intro c2 hc2
    rw [hc] at h3
    cases cs with
    | nil => cases hc2
    | cons d ds =>
      rw [List.getLast?_cons_cons] at h3
      rw [hc2] at h3
      simpa using h3
  intro t ht
  unfold jsSplitWs at ht
  rw [hc, jsSplitRun, if_neg (by rw [h0]; simp)] at ht
  exact (jsSplit_no_empty cs hlast').1 [c0] (by simp) t ht

/-- For a non-empty string with no edge whitespace, the spec token
count coincides with the JS split length. -/
theorem specTokenCount_eq_split_length (s : String) (h1 : s.data ≠ [])
    (h2 : (s.data.head?.map isSpaceJs).getD false = false)
    (h3 : (s.data.getLast?.map isSpaceJs).getD false = false) :
    specTokenCount s = (jsSplitWs s).length := by
  unfold specTokenCount
  rw [List.filter_eq_self.mpr]
  intro a ha
  simpa using jsSplitWs_all_nonempty s h1 h2 h3 a ha

/-- C2: every 200 response of POST /api/generate carries images and
imageTypes arrays of equal length, and that common length is at most 3
(hence between 0 and 3 inclusive). -/
theorem response_images_imageTypes_parallel (req : GenRequest)
    (call : String → String → Nat → CallOutcome) (key : Option String)
    (search : String → Except String (Option String)) (bt : Nat)
    (c : String) (wc : Nat) (pf : String) (imgs tys : List String)
    (h : (handlePost req call key search bt).fst = ApiResponse.ok c wc pf imgs tys) :
    imgs.length = tys.length ∧ imgs.length ≤ 3 := by
  unfold handlePost at h
  split at h
  · simp at h
  · dsimp only at h
    rcases hout : (generateWithRetry call modelsList (mkEnhancedPrompt req) 2).outcome
      with msg | text
    · rw [hout] at h
      simp at h
    · rw [hout] at h
      dsimp only at h
      injection h with h1 h2 h3 h4 h5
      subst h4
      subst h5
      have hspec := generateImageSuggestions_spec (req.prompt.getD "") req.contentType text
        key search bt
      have hle := imgHits_le_three key search (req.prompt.getD "") req.contentType
      have himg : (generateImageSuggestions (req.prompt.getD "") req.contentType text
          key search bt).fst.images.length = 3 := by
        rw [hspec.1]
        simp only [List.length_append, List.length_map, List.length_range]
        omega
      have htag : (generateImageSuggestions (req.prompt.getD "") req.contentType text
          key search bt).fst.tags.length = 3 := by
        rw [hspec.2]
        simp only [List.length_append, List.length_replicate]
        omega
      rw [if_pos (by rw [htag]; norm_num)]
      omega

/-- C2 witness: the theorem applied to a concrete successful request. -/
theorem response_images_imageTypes_parallel_witness :
    ([picsumUrl 1 0, picsumUrl 101 1, picsumUrl 201 2] : List String).length
        = (["stock", "stock", "stock"] : List String).length ∧
    ([picsumUrl 1 0, picsumUrl 101 1, picsumUrl 201 2] : List String).length ≤ 3 :=
  response_images_imageTypes_parallel ⟨some "x", none, none, none, none⟩
    (fun _ _ _ => CallOutcome.ok "hi") none (fun _ => Except.error "d") 0
    "hi" 1 "standard" [picsumUrl 1 0, picsumUrl 101 1, picsumUrl 201 2]
    ["stock", "stock", "stock"] (by decide)

/-- C8 (amended): in every 200 response, wordCount is the length of the
JS split of the content on whitespace runs.  That length equals the
number of whitespace-separated tokens whenever the content is non-empty
and has neither leading nor trailing whitespace; content with leading or
trailing whitespace is counted one higher per affected edge (see the
counterexample), so the claim as stated fails for such content. -/
theorem response_wordCount_split (req : GenRequest)
    (call : String → String → Nat → CallOutcome) (key : Option String)
    (search : String → Except String (Option String)) (bt : Nat)
    (c : String) (wc : Nat) (pf : String) (imgs tys : List String)
    (h : (handlePost req call key search bt).fst = ApiResponse.ok c wc pf imgs tys) :
    wc = (jsSplitWs c).length ∧
    (c.data ≠ [] →
      (c.data.head?.map isSpaceJs).getD false = false →
      (c.data.getLast?.map isSpaceJs).getD false = false →
      wc = specTokenCount c) := by
  unfold handlePost at h
  split at h
  · simp at h
  · dsimp only at h
    rcases hout : (generateWithRetry call modelsList (mkEnhancedPrompt req) 2).outcome
      with msg | text
    · rw [hout] at h
      simp at h
    · rw [hout] at h
      dsimp only at h
      injection h with h1 h2 h3 h4 h5
      subst h1
      subst h2
      refine ⟨rfl, ?_⟩
      intro hne hhd hlast
      rw [specTokenCount_eq_split_length text hne hhd hlast]

/-- C8 witness: the amended theorem applied to a clean two-token
content. -/
theorem response_wordCount_split_witness :
    (2 : Nat) = (jsSplitWs "hello world").length ∧
    (2 : Nat) = specTokenCount "hello world" := by
  have h := response_wordCount_split ⟨some "x", none, none, none, none⟩
    (fun _ _ _ => CallOutcome.ok "hello world") none (fun _ => Except.error "d") 0
    "hello world" 2 "standard" [picsumUrl 1 0, picsumUrl 101 1, picsumUrl 201 2]
    ["stock", "stock", "stock"] (by decide)
  exact ⟨h.1, h.2 (by decide) (by decide) (by decide)⟩

/-- C8 counterexample: a successful response whose content has leading
whitespace reports wordCount 2 although the content has a single
whitespace-separated token, refuting the claim as stated. -/
theorem response_wordCount_counterexample :
    (handlePost ⟨some "x", none, none, none, none⟩ (fun _ _ _ => CallOutcome.ok " hello") none
        (fun _ => Except.error "d") 0).fst
      = ApiResponse.ok " hello" 2 "standard"
          [picsumUrl 1 0, picsumUrl 101 1, picsumUrl 201 2]
          ["stock", "stock", "stock"] ∧
    specTokenCount " hello" = 1 ∧ (2 : Nat) ≠ 1 := by
  decide

/-- The history after a sequence of operations is the recorded versions
in reverse order on top of the starting history, and the current-version
index is 0 as soon as one operation ran. -/
theorem applyOps_history : ∀ (ops : List EditOp) (s : ClientState),
    (applyOps s ops).contentHistory = (ops.map opVersion).reverse ++ s.contentHistory ∧
    (applyOps s ops).currentVersion = (if ops.isEmpty then s.currentVersion else 0) := by
  intro ops
  induction ops with
  | nil => intro s; simp [applyOps]
  | cons op ops ih =>
    intro s
    have h1 : applyOps s (op :: ops) = applyOps (applyOp s op) ops := rfl
    have h2 : (applyOp s op).contentHistory = opVersion op :: s.contentHistory := by
      cases op <;> rfl
    have h3 : (applyOp s op).currentVersion = 0 := by cases op <;> rfl
    rw [h1]
    constructor
    · rw [(ih (applyOp s op)).1, h2]
      simp
    · rw [(ih (applyOp s op)).2, h3]
      cases ops <;> simp

/-- C9: starting from the empty history, N successful generate or
save-edit operations leave exactly the N recorded versions most recent
first, the current-version index is 0, non-decreasing operation times
make the stored timestamps reverse-chronological, and reject clears both
the draft content and the entire history. -/
theorem client_history_append_only (ops : List EditOp) :
    (applyOps initClientState ops).contentHistory = (ops.map opVersion).reverse ∧
    (applyOps initClientState ops).contentHistory.length = ops.length ∧
    (applyOps initClientState ops).currentVersion = 0 ∧
    (List.Chain' (· ≤ ·) (ops.map opTime) →
      List.Chain' (· ≥ ·)
        ((applyOps initClientState ops).contentHistory.map (fun v => v.timestamp))) ∧
    (∀ s : ClientState, (rejectContent s).generatedContent = ""
      ∧ (rejectContent s).contentHistory = []) := by
  have h := applyOps_history ops initClientState
  have hh : (applyOps initClientState ops).contentHistory = (ops.map opVersion).reverse := by
    rw [h.1]; simp [initClientState]
  refine ⟨hh, ?_, ?_, ?_, ?_⟩
  · rw [hh]; simp
  · rw [h.2]; cases ops <;> simp [initClientState]
  · intro hmono
    rw [hh, List.map_reverse, List.chain'_reverse, List.map_map]
    exact hmono
  · intro s; exact ⟨rfl, rfl⟩

/-- C9 witness: the theorem applied to a generate followed by a
save-edit with non-decreasing clock readings. -/
theorem client_history_append_only_witness :
    (applyOps initClientState [EditOp.generate "a" 1, EditOp.saveEdit "b" 2]).contentHistory
        = [⟨"b", 2⟩, ⟨"a", 1⟩] ∧
    (applyOps initClientState [EditOp.generate "a" 1, EditOp.saveEdit "b" 2]).currentVersion = 0 ∧
    List.Chain' (· ≥ ·)
      ((applyOps initClientState
        [EditOp.generate "a" 1, EditOp.saveEdit "b" 2]).contentHistory.map
          (fun v => v.timestamp)) ∧
    (rejectContent (applyOps initClientState
      [EditOp.generate "a" 1, EditOp.saveEdit "b" 2])).contentHistory = [] := by
  have h := client_history_append_only [EditOp.generate "a" 1, EditOp.saveEdit "b" 2]
  exact ⟨h.1.trans (by decide), h.2.2.1,
    h.2.2.2.1 (by simp [opTime, opVersion, List.chain'_cons, List.chain'_singleton]),
    (h.2.2.2.2 _).2⟩
